import Mathlib

/-!
Verification of the fraud-risk analysis engine.

Shallow embedding of the Python sources:
  * `src/agents/specialists/__init__.py` — the five specialist detectors
  * `src/agents/tools.py`                — the UPI scam-detector tool
  * `src/agents/financial_bodyguard.py`  — the orchestrator
  * `src/core/adk_core.py`               — the agent-execution boundary

Machine reals (Python floats) are modelled as exact rationals `ℚ`;
`str.lower()` is modelled as ASCII lowering (all detection keywords are
ASCII).  Wall-clock timestamps are outside the embedding.
-/

namespace Scalar

/-! ## String helpers (Python `in`, `str.lower`, counting) -/

/-- ASCII lowering of a character (the keyword tables are ASCII). -/
def lowerCh (c : Char) : Char :=
  if 'A' ≤ c ∧ c ≤ 'Z' then Char.ofNat (c.toNat + 32) else c

/-- ASCII lowering of a string, modelling Python `str.lower()` on the
ASCII fragment relevant to the keyword tables. -/
def lower (s : String) : String := ⟨s.data.map lowerCh⟩

/-- `needle` occurs at the head of `hay` (on character lists). -/
def prefixCL : List Char → List Char → Bool
  | [], _ => true
  | _ :: _, [] => false
  | a :: as, b :: bs => a == b && prefixCL as bs

/-- `needle` occurs somewhere in `hay`, modelling Python `needle in hay`. -/
def containsCL (needle : List Char) : List Char → Bool
  | [] => prefixCL needle []
  | c :: cs => prefixCL needle (c :: cs) || containsCL needle cs

/-- Substring test on strings, modelling Python `needle in hay`. -/
def substr (needle hay : String) : Bool := containsCL needle.toList hay.toList

/-- `sum(1 for w in words if w in s)` -/
def countHits (words : List String) (s : String) : ℕ :=
  (words.filter (fun w => substr w s)).length

/-- `any(w in s for w in words)` -/
def anyHit (words : List String) (s : String) : Bool :=
  words.any (fun w => substr w s)

/-! ## Regex fragment used by the detectors

The detectors use `re.search` only on patterns built from literals,
`lit1.*lit2` (where `.` does not match a newline), `\d+`, `\s*` and small
literal alternations; these are modelled by dedicated scanners. -/

/-- Search for `b` where every skipped character is consumed by `.*`
(hence must not be a newline). -/
def searchNoNL (b : List Char) : List Char → Bool
  | [] => prefixCL b []
  | c :: cs => prefixCL b (c :: cs) || (!(c == '\n') && searchNoNL b cs)

/-- `re.search(a ++ ".*" ++ b, s)`: an occurrence of `a`, then arbitrary
non-newline characters, then an occurrence of `b`. -/
def reSeq2CL (a b : List Char) : List Char → Bool
  | [] => false
  | c :: cs => (prefixCL a (c :: cs) && searchNoNL b (List.drop a.length (c :: cs))) ||
      reSeq2CL a b cs

/-- `re.search` for a two-literal pattern `a.*b` on strings. -/
def reSeq2 (a b s : String) : Bool := reSeq2CL a.toList b.toList s.toList

def isDigitCh (c : Char) : Bool := '0' ≤ c && c ≤ '9'

/-- Python `\s` whitespace class. -/
def isSpaceCh (c : Char) : Bool :=
  c == ' ' || c == '\t' || c == '\n' || c == '\r' || c == '\x0b' || c == '\x0c'

def digitVal (c : Char) : ℕ := c.toNat - '0'.toNat

def natOfDigits (ds : List Char) : ℕ :=
  ds.foldl (fun acc c => 10 * acc + digitVal c) 0

/-- Value of a decimal string `intPart ++ "." ++ fracPart` as a rational. -/
def decimalVal (intPart fracPart : List Char) : ℚ :=
  (natOfDigits intPart : ℚ) + (natOfDigits fracPart : ℚ) / (10 : ℚ) ^ fracPart.length

/-! ## UPI fraud specialist — `UPIFraudAgent.analyze` -/

/-- One two-tier detection pattern: keyword set, indicator set, base weight. -/
structure DetectionPattern where
  name : String
  keywords : List String
  indicators : List String
  risk : ℚ
deriving DecidableEq, Repr

/-- The `collect_scam` pattern of `UPIFraudAgent.patterns`. -/
def upiCollectScam : DetectionPattern :=
  ⟨"collect_scam", ["collect", "request", "claim", "receive", "accepting"],
    ["won", "lottery", "prize", "cashback", "reward", "refund"], 0.95⟩

/-- `UPIFraudAgent.patterns` (insertion order preserved). -/
def upiPatterns : List DetectionPattern :=
  [ upiCollectScam,
    ⟨"qr_fraud", ["scan", "qr", "code"],
      ["receive", "payment", "money", "credit"], 0.92⟩,
    ⟨"fake_refund", ["refund", "reversal", "pending", "failed"],
      ["upi pin", "enter", "verify", "confirm"], 0.90⟩,
    ⟨"marketplace", ["army", "crpf", "posting", "buyer", "seller"],
      ["qr", "link", "pay", "receive"], 0.88⟩ ]

/-- A matched pattern as recorded in `detected_patterns`. -/
structure DetectedPattern where
  name : String
  risk : ℚ
  keywords : ℕ
  indicators : ℕ
deriving DecidableEq, Repr

/-- Per-pattern matching of `UPIFraudAgent.analyze`: requires one keyword
hit and one indicator hit; score `min(risk * (0.7 + 0.15*k + 0.15*i), 1)`. -/
def upiPatternScore (p : DetectionPattern) (cl : String) : Option DetectedPattern :=
  let k := countHits p.keywords cl
  let i := countHits p.indicators cl
  if 0 < k ∧ 0 < i then
    some ⟨p.name, min (p.risk * (0.7 + 0.15 * k + 0.15 * i)) 1, k, i⟩
  else none

/-- `detected_patterns` of `UPIFraudAgent.analyze` (argument already lowered). -/
def upiDetected (cl : String) : List DetectedPattern :=
  upiPatterns.filterMap (fun p => upiPatternScore p cl)

/-- Running `max` fold used throughout the sources (`max_risk` starts at 0). -/
def foldMax {α : Type} [LinearOrder α] (q : α) (l : List α) : α := l.foldl max q

/-- `max_risk` after the pattern loop of `UPIFraudAgent.analyze`
(before the urgency amplifier). -/
def upiBaseRisk (cl : String) : ℚ := foldMax 0 ((upiDetected cl).map (·.risk))

def upiUrgencyWords : List String :=
  ["urgent", "immediately", "now", "hurry", "fast", "limited", "expire", "last chance"]

/-- `max_risk` of `UPIFraudAgent.analyze` after the urgency amplifier. -/
def upiRisk (cl : String) : ℚ :=
  let u := countHits upiUrgencyWords cl
  if 0 < u then min (upiBaseRisk cl + 0.05 * u) 1 else upiBaseRisk cl

/-- The fields of a specialist finding read by the orchestrator
(`agent`, `risk_score`) together with the detector-local threat tier
(`threat_level`; absent from the document analyst result). -/
structure Finding where
  agent : String
  risk_score : ℚ
  threat_level : Option String
deriving DecidableEq, Repr

/-- `UPIFraudAgent.analyze` (fields relevant to aggregation). -/
def upiAnalyze (content : String) : Finding :=
  let cl := lower content
  let r := upiRisk cl
  ⟨"upi_fraud_agent", r,
    some (if r ≥ 0.9 then "CRITICAL"
          else if r ≥ 0.7 then "HIGH"
          else if r ≥ 0.4 then "MEDIUM"
          else "LOW")⟩

/-! ## UPI scam-detector tool — `UPIScamDetector.analyze` (`src/agents/tools.py`) -/

/-- The `collect_request_scam` pattern of `UPIScamDetector.SCAM_PATTERNS`. -/
def toolCollectRequestScam : DetectionPattern :=
  ⟨"collect_request_scam", ["collect", "request", "pay", "receive", "claim"],
    ["won", "lottery", "prize", "cashback", "refund", "reward"], 0.9⟩

/-- `UPIScamDetector.SCAM_PATTERNS` (insertion order preserved). -/
def toolScamPatterns : List DetectionPattern :=
  [ toolCollectRequestScam,
    ⟨"fake_cashback", ["cashback", "bonus", "reward", "credit"],
      ["click", "link", "verify", "otp"], 0.85⟩,
    ⟨"refund_scam", ["refund", "reversal", "failed", "pending"],
      ["upi pin", "enter", "confirm", "process"], 0.88⟩,
    ⟨"qr_code_scam", ["scan", "qr", "code", "payment"],
      ["receive", "get", "credit", "money"], 0.92⟩ ]

/-- Per-pattern score of `UPIScamDetector.analyze`:
`min(risk * (0.5 + 0.25*keyword_matches + 0.25*indicator_matches), 1)`. -/
def toolPatternScore (p : DetectionPattern) (ml : String) : Option ℚ :=
  let k := countHits p.keywords ml
  let i := countHits p.indicators ml
  if 0 < k ∧ 0 < i then
    some (min (p.risk * (0.5 + 0.25 * k + 0.25 * i)) 1)
  else none

/-- Scores of the matched patterns of `UPIScamDetector.analyze`. -/
def toolDetected (ml : String) : List ℚ :=
  toolScamPatterns.filterMap (fun p => toolPatternScore p ml)

/-- `total_risk` after the pattern loop of `UPIScamDetector.analyze`
(pre-amplifier). -/
def toolBaseRisk (ml : String) : ℚ := foldMax 0 (toolDetected ml)

def toolUrgencyWords : List String :=
  ["urgent", "immediately", "now", "hurry", "fast", "quick", "limited", "expire"]

def toolOddAmounts : List ℚ := [1, 10, 49999, 50000, 99999, 100000]

/-- `total_risk` of `UPIScamDetector.analyze` after the urgency and
suspicious-amount amplifiers. -/
def toolRisk (ml : String) (amount : Option ℚ) : ℚ :=
  let u := countHits toolUrgencyWords ml
  let r1 := if 0 < u then min (toolBaseRisk ml + 0.1 * u) 1 else toolBaseRisk ml
  match amount with
  | some a => if a ≠ 0 ∧ a ∈ toolOddAmounts then min (r1 + 0.15) 1 else r1
  | none => r1

/-! ## Phishing specialist — `PhishingAgent.analyze` -/

/-- The regex fragment used by the phishing indicator table: a literal,
or `lit1.*lit2`. -/
inductive RePat where
  | lit (s : String)
  | seq2 (a b : String)
deriving DecidableEq, Repr

def runRe : RePat → String → Bool
  | .lit s, t => substr s t
  | .seq2 a b, t => reSeq2 a b t

structure PhishingIndicator where
  name : String
  patterns : List RePat
  risk : ℚ
deriving Repr

/-- `PhishingAgent.phishing_indicators` (insertion order preserved). -/
def phishingIndicators : List PhishingIndicator :=
  [ ⟨"apk_download", [.lit ".apk", .seq2 "download" "app", .seq2 "install" "app"], 0.98⟩,
    ⟨"shortened_url", [.lit "bit.ly", .lit "tinyurl", .lit "goo.gl", .lit "t.co", .lit "short."], 0.85⟩,
    ⟨"fake_bank", [.seq2 "sbi" "update", .seq2 "hdfc" "kyc", .seq2 "icici" "verify",
        .seq2 "axis" "confirm"], 0.90⟩,
    ⟨"account_threat", [.seq2 "block" "account", .lit "suspend", .lit "freeze",
        .lit "deactivate", .seq2 "close" "account"], 0.80⟩,
    ⟨"screen_share", [.lit "anydesk", .lit "teamviewer", .lit "quicksupport",
        .seq2 "screen" "share"], 0.95⟩,
    ⟨"otp_request", [.seq2 "share" "otp", .seq2 "enter" "otp", .seq2 "send" "otp",
        .seq2 "otp" "verification"], 0.96⟩ ]

/-- `max_risk` after the indicator loop of `PhishingAgent.analyze`
(a group contributes its fixed risk when any of its patterns matches). -/
def phishingBaseRisk (cl : String) : ℚ :=
  foldMax 0 (((phishingIndicators.filter
    (fun d => d.patterns.any (fun p => runRe p cl))).map (·.risk)))

/-- `max_risk` of `PhishingAgent.analyze` after the additional KYC check. -/
def phishingRisk (cl : String) : ℚ :=
  let m := phishingBaseRisk cl
  if substr "kyc" cl ∧ (substr "update" cl ∨ substr "verify" cl) then
    if m < 0.8 then 0.85 else m
  else m

/-- `PhishingAgent.analyze` (fields relevant to aggregation). -/
def phishingAnalyze (content : String) : Finding :=
  let r := phishingRisk (lower content)
  ⟨"phishing_agent", r,
    some (if r ≥ 0.9 then "CRITICAL" else if r ≥ 0.7 then "HIGH" else "LOW")⟩

/-! ## Impersonation specialist — `ImpersonationAgent.analyze` -/

def authorityKeywords : List String :=
  ["police", "cbi", "ed", "enforcement directorate", "crime branch",
   "cyber cell", "income tax", "customs", "narcotics", "ncb",
   "interpol", "fir", "warrant", "court order", "legal notice"]

def threatIndicators : List String :=
  ["arrest", "custody", "jail", "prison", "warrant",
   "case against", "charges", "investigation", "questioning",
   "money laundering", "illegal", "suspicious activity"]

def moneyDemands : List String :=
  ["pay", "transfer", "fine", "penalty", "fee", "deposit",
   "security", "bail", "₹", "rs", "rupee", "lakh", "crore"]

def videoCallTerms : List String :=
  ["video call", "whatsapp video", "online arrest", "digital arrest"]

/-- `risk_score` of `ImpersonationAgent.analyze`. -/
def impersonationRisk (cl : String) : ℚ :=
  let a := countHits authorityKeywords cl
  let t := countHits threatIndicators cl
  let r1 : ℚ := if 0 < a then 0 + 0.3 * (min a 3 : ℕ) else 0
  let r2 : ℚ := if 0 < t then r1 + 0.25 * (min t 3 : ℕ) else r1
  let r3 : ℚ := if anyHit moneyDemands cl then r2 + 0.35 else r2
  let r4 : ℚ := if anyHit videoCallTerms cl then r3 + 0.25 else r3
  min r4 1

/-- `ImpersonationAgent.analyze` (fields relevant to aggregation). -/
def impersonationAnalyze (content : String) : Finding :=
  let r := impersonationRisk (lower content)
  ⟨"impersonation_agent", r,
    some (if r ≥ 0.8 then "CRITICAL" else if r ≥ 0.5 then "HIGH" else "LOW")⟩

/-! ## Document specialist — `DocumentAnalystAgent.analyze` (doc_type `loan`) -/

/-- `DocumentAnalystAgent.loan_red_flags` (insertion order preserved). -/
def loanRedFlags : List (String × List String) :=
  [ ("floating_rate", ["floating", "variable rate", "linked to repo", "subject to change"]),
    ("foreclosure_penalty", ["foreclosure charge", "prepayment penalty", "early closure fee"]),
    ("hidden_fees", ["processing fee", "documentation charge", "verification fee"]),
    ("forced_insurance", ["mandatory insurance", "credit protect", "loan cover"]),
    ("penal_interest", ["penal interest", "default charge", "late payment penalty"]) ]

/-- Match of the interest-rate regex `(\d+\.?\d*)\s*%...` at the current
position, returning the numeric value of group 1. -/
def matchRateAt : List Char → Option ℚ
  | [] => none
  | c :: cs =>
    if isDigitCh c then
      let d1 := c :: cs.takeWhile isDigitCh
      let rest1 := cs.dropWhile isDigitCh
      let frac :=
        match rest1 with
        | '.' :: r => r.takeWhile isDigitCh
        | _ => []
      let rest2 :=
        match rest1 with
        | '.' :: r => r.dropWhile isDigitCh
        | _ => rest1
      match rest2.dropWhile isSpaceCh with
      | '%' :: _ => some (decimalVal d1 frac)
      | _ => none
    else none

/-- Leftmost match of the interest-rate regex (`re.search` semantics). -/
def findRateCL : List Char → Option ℚ
  | [] => none
  | c :: cs =>
    match matchRateAt (c :: cs) with
    | some v => some v
    | none => findRateCL cs

/-- `issue_count` of `DocumentAnalystAgent.analyze` for a loan document:
one issue per red-flag group with a keyword hit, plus the high-rate issue
when the extracted interest rate exceeds 15. -/
def documentIssueCount (cl : String) : ℕ :=
  (loanRedFlags.filter (fun g => anyHit g.2 cl)).length +
    match findRateCL cl.toList with
    | some r => if 15 < r then 1 else 0
    | none => 0

/-- `risk_score` of `DocumentAnalystAgent.analyze`: `min(issue_count * 0.2, 1.0)`. -/
def documentRisk (cl : String) : ℚ := min ((documentIssueCount cl : ℚ) * 0.2) 1

/-- `DocumentAnalystAgent.analyze` (fields relevant to aggregation; its
result dict carries no `threat_level` key). -/
def documentAnalyze (content : String) : Finding :=
  ⟨"document_agent", documentRisk (lower content), none⟩

/-! ## Investment specialist — `InvestmentFraudAgent.analyze` -/

def scamIndicators : List String :=
  ["guaranteed returns", "risk-free", "double your money",
   "high returns", "100% profit", "fixed return",
   "no loss", "sure profit", "income guarantee"]

def redFlagTerms : List String :=
  ["referral bonus", "mlm", "network marketing",
   "joining fee", "registration fee", "crypto trading",
   "forex", "binary options", "daily profit"]

/-- Match of the unrealistic-return regex `(\d+)\s*%\s*(daily|weekly|monthly|per month)`
at the current position. -/
def matchReturnAt : List Char → Bool
  | [] => false
  | c :: cs =>
    isDigitCh c &&
      (match (cs.dropWhile isDigitCh).dropWhile isSpaceCh with
       | '%' :: r3 =>
         let r4 := r3.dropWhile isSpaceCh
         prefixCL "daily".toList r4 || prefixCL "weekly".toList r4 ||
           prefixCL "monthly".toList r4 || prefixCL "per month".toList r4
       | _ => false)

/-- `re.search` for the unrealistic-return regex. -/
def searchReturnCL : List Char → Bool
  | [] => false
  | c :: cs => matchReturnAt (c :: cs) || searchReturnCL cs

/-- `risk_score` of `InvestmentFraudAgent.analyze`. -/
def investmentRisk (cl : String) : ℚ :=
  let s := countHits scamIndicators cl
  let rf := countHits redFlagTerms cl
  let r1 : ℚ := if 0 < s then 0 + 0.4 * (min s 3 : ℕ) else 0
  let r2 : ℚ := if 0 < rf then r1 + 0.3 * (min rf 3 : ℕ) else r1
  let r3 : ℚ := if searchReturnCL cl.toList then max r2 0.95 else r2
  min r3 1

/-- `InvestmentFraudAgent.analyze` (fields relevant to aggregation). -/
def investmentAnalyze (content : String) : Finding :=
  let r := investmentRisk (lower content)
  ⟨"investment_agent", r,
    some (if r ≥ 0.8 then "CRITICAL" else if r ≥ 0.5 then "HIGH" else "LOW")⟩

/-! ## Orchestrator — `FinancialBodyguardOrchestrator` -/

def upiTriggers : List String :=
  ["upi", "collect", "pay", "gpay", "phonepe", "paytm", "qr", "₹", "rs"]
def phishingTriggers : List String :=
  ["kyc", "update", "verify", "bank", "apk", "download", "link", "click"]
def impersonationTriggers : List String :=
  ["police", "cbi", "ed", "arrest", "warrant", "customs", "parcel"]
def documentTriggers : List String :=
  ["loan", "emi", "insurance", "policy", "premium", "interest rate"]
def investmentTriggers : List String :=
  ["invest", "return", "profit", "trading", "crypto", "forex", "double"]

/-- `_route_to_agents`: keyword routing with a fixed default trio. -/
def routeToAgents (content : String) : List String :=
  let cl := lower content
  let agents :=
    (if anyHit upiTriggers cl then ["upi"] else []) ++
    (if anyHit phishingTriggers cl then ["phishing"] else []) ++
    (if anyHit impersonationTriggers cl then ["impersonation"] else []) ++
    (if anyHit documentTriggers cl then ["document"] else []) ++
    (if anyHit investmentTriggers cl then ["investment"] else [])
  if agents = [] then ["upi", "phishing", "impersonation"] else agents

/-- `self.specialists`: routing key to the specialist analyze function. -/
def specialistFor : String → Option (String → Finding)
  | "upi" => some upiAnalyze
  | "phishing" => some phishingAnalyze
  | "impersonation" => some impersonationAnalyze
  | "document" => some documentAnalyze
  | "investment" => some investmentAnalyze
  | _ => none

/-- The specialist loop of `analyze`: run each routed agent in invocation
order, skipping unknown ids. -/
def runSpecialists (content : String) : List Finding :=
  (routeToAgents content).filterMap (fun id => (specialistFor id).map (fun f => f content))

/-- The aggregated verdict of `_aggregate_results`.  Python returns a
dict; the empty-input branch omits `agent_count`/`all_risks`, modelled
here as `0`/`[]`. -/
structure Aggregated where
  threat_level : String
  risk_score : ℚ
  primary_threat : Option String
  agent_count : ℕ
  all_risks : List ℚ
deriving Repr

/-- `FinancialBodyguardOrchestrator._aggregate_results`. -/
def aggregateResults : List Finding → Aggregated
  | [] => ⟨"SAFE", 0, none, 0, []⟩
  | r :: rs =>
    let maxRisk := foldMax r.risk_score (rs.map (·.risk_score))
    let primary := ((r :: rs).find? (fun x => decide (x.risk_score = maxRisk))).map (·.agent)
    let threat :=
      if maxRisk ≥ 0.9 then "CRITICAL"
      else if maxRisk ≥ 0.7 then "HIGH"
      else if maxRisk ≥ 0.4 then "MEDIUM"
      else if maxRisk > 0.1 then "LOW"
      else "SAFE"
    ⟨threat, maxRisk, primary, (r :: rs).length, (r :: rs).map (·.risk_score)⟩

/-- A fraud trajectory from the static library (shape of the data file:
`id`, `name`, `red_flags`, optional `hindi_warning`). -/
structure Trajectory where
  id : String
  name : String
  red_flags : List String
  hindi_warning : Option String
deriving DecidableEq, Repr

/-- Number of red-flag phrases of `t` occurring (case-insensitively) in
the lowered content `cl`. -/
def trajScore (cl : String) (t : Trajectory) : ℕ :=
  (t.red_flags.filter (fun rf => substr (lower rf) cl)).length

/-- One step of the `_match_trajectory` loop: replace the best match
only on a strictly greater red-flag count. -/
def trajStep (cl : String) (b : Option Trajectory × ℕ) (t : Trajectory) :
    Option Trajectory × ℕ :=
  if b.2 < trajScore cl t then (some t, trajScore cl t) else b

/-- `FinancialBodyguardOrchestrator._match_trajectory`: keep the first
strictly-better match while scanning the library; accept only a best
count of at least 2. -/
def matchTrajectory (trajs : List Trajectory) (content : String) : Option Trajectory :=
  let cl := lower content
  let best := trajs.foldl (trajStep cl) (none, 0)
  if 2 ≤ best.2 then best.1 else none

/-- The elder-specific literal prepended for users aged 60 and above. -/
def elderRec : String := "👴 Please show this to a younger family member"

def criticalRecs : List String :=
  [ "🚨 STOP! Do NOT proceed with this transaction!",
    "🚫 Do NOT share any OTP, PIN, or password",
    "📞 Call Cyber Crime Helpline: 1930",
    "👨‍👩‍👧 Inform a trusted family member immediately",
    "🏦 If you\x27ve shared any details, call your bank NOW" ]

def highRecs : List String :=
  [ "⚠️ This appears to be a scam - do not proceed",
    "🔒 Do not click any links in this message",
    "📱 Verify sender through official channels only",
    "⏰ Take time to verify - genuine matters can wait" ]

def mediumRecs : List String :=
  [ "⚡ Exercise caution before proceeding",
    "🔍 Verify the sender\x27s identity",
    "📞 Contact official helpline to confirm" ]

def defaultRecs : List String :=
  [ "✅ No immediate threat detected",
    "🔒 Always protect your OTP and PIN",
    "👀 Stay alert for future suspicious messages" ]

/-- `FinancialBodyguardOrchestrator._generate_recommendations`. -/
def generateRecommendations (threatLevel : String) (_riskScore : ℚ) (userAge : ℤ) : List String :=
  let isElderly := 60 ≤ userAge
  if threatLevel = "CRITICAL" then
    if isElderly then elderRec :: criticalRecs else criticalRecs
  else if threatLevel = "HIGH" then highRecs
  else if threatLevel = "MEDIUM" then mediumRecs
  else defaultRecs

/-- `FinancialBodyguardOrchestrator._generate_summaries`.  A matched
trajectory appends its name to the English summary and its Hindi warning
(when present and non-empty, per Python truthiness) to the Hindi one. -/
def generateSummaries (agg : Aggregated) (traj : Option Trajectory) : String × String :=
  let base :=
    if agg.threat_level = "CRITICAL" then
      ("🚨 CRITICAL THREAT! This is almost certainly a scam. Do NOT proceed!",
       "🚨 गंभीर खतरा! यह निश्चित रूप से धोखाधड़ी है! आगे न बढ़ें! हेल्पलाइन: 1930")
    else if agg.threat_level = "HIGH" then
      ("⚠️ HIGH RISK detected. Strong indicators of fraud found.",
       "⚠️ उच्च जोखिम! धोखाधड़ी के संकेत मिले।")
    else if agg.threat_level = "MEDIUM" then
      ("⚡ CAUTION advised. Some suspicious elements found.",
       "⚡ सावधान! कुछ संदिग्ध तत्व मिले।")
    else
      ("✅ LOW RISK. No major threats detected.",
       "✅ कम जोखिम। कोई बड़ा खतरा नहीं।")
  match traj with
  | some t =>
    ( base.1 ++ "\n\nMatched scam pattern: " ++ t.name,
      match t.hindi_warning with
      | some w => if w ≠ "" then base.2 ++ "\n\n" ++ w else base.2
      | none => base.2 )
  | none => base

/-- The orchestrator statistics counters. -/
structure Stats where
  total_analyses : ℕ
  threats_detected : ℕ
  critical_blocks : ℕ
deriving DecidableEq, Repr

/-- `ProtectionResult` (the wall-clock `timestamp` field is outside the
embedding). -/
structure ProtectionResult where
  threat_level : String
  risk_score : ℚ
  primary_threat : Option String
  summary : String
  hindi_summary : String
  recommendations : List String
  agent_findings : List Finding
  matched_trajectory : Option Trajectory
  emergency_action : Bool
deriving Repr

/-- `FinancialBodyguardOrchestrator.analyze`: routing, specialist runs,
aggregation, trajectory match, recommendations, summaries, and the
statistics update, returning the result and the new counters. -/
def analyze (trajs : List Trajectory) (stats : Stats) (content : String)
    (userAge : ℤ) : ProtectionResult × Stats :=
  let stats1 := { stats with total_analyses := stats.total_analyses + 1 }
  let agentResults := runSpecialists content
  let aggregated := aggregateResults agentResults
  let matched := matchTrajectory trajs content
  let recs := generateRecommendations aggregated.threat_level aggregated.risk_score userAge
  let summaries := generateSummaries aggregated matched
  let stats2 :=
    if aggregated.threat_level = "HIGH" ∨ aggregated.threat_level = "CRITICAL" then
      { stats1 with threats_detected := stats1.threats_detected + 1 }
    else stats1
  let stats3 :=
    if aggregated.threat_level = "CRITICAL" then
      { stats2 with critical_blocks := stats2.critical_blocks + 1 }
    else stats2
  (⟨aggregated.threat_level, aggregated.risk_score, aggregated.primary_threat,
     summaries.1, summaries.2, recs, agentResults, matched,
     aggregated.threat_level == "CRITICAL"⟩,
   stats3)

/-! ## Agent-execution boundary — `BaseAgent.execute` (`src/core/adk_core.py`)

The body of `execute` (plan, then delegate / tool-use / direct response,
then verify) is modelled as a function returning either the plan
reasoning with the verified result, or the text of the raised error
(`Except` models Python exception propagation inside the `try` block). -/

inductive TStatus where
  | pending | running | completed | failed | delegated
deriving DecidableEq, Repr

/-- `TaskResult` over a result payload type `α` (the `sub_results`,
`execution_time` and `metadata` fields are not modelled; the failure
branch stores `{"error": str(e)}`, modelled as `Except.error e`). -/
structure ATaskResult (α : Type) where
  task_id : String
  agent_id : String
  status : TStatus
  result : Except String α
  confidence : ℚ
  reasoning : String

structure ATask where
  task_id : String
  content : String

/-- `BaseAgent._calculate_confidence`: 0 when the result carries an error
marker, else the fixed 0.8. -/
def calculateConfidence {α : Type} (hasError : α → Bool) (r : α) : ℚ :=
  if hasError r then 0 else 0.8

/-- `BaseAgent.execute`: run the body; on success build a COMPLETED
result with the computed confidence; any raised error is converted into
a FAILED result with confidence 0 and the error text in the reasoning. -/
def executeAgent {α : Type} (agentId : String) (hasError : α → Bool)
    (body : ATask → Except String (String × α)) (task : ATask) : ATaskResult α :=
  match body task with
  | .ok (reasoning, r) =>
    ⟨task.task_id, agentId, .completed, .ok r, calculateConfidence hasError r, reasoning⟩
  | .error e =>
    ⟨task.task_id, agentId, .failed, .error e, 0, "Execution failed: " ++ e⟩

/-! ## Helper lemmas on the running-max fold and on `List.find?` -/

theorem foldMax_cons {α : Type} [LinearOrder α] (q x : α) (l : List α) :
    foldMax q (x :: l) = foldMax (max q x) l := rfl

theorem le_foldMax_init {α : Type} [LinearOrder α] (l : List α) :
    ∀ q : α, q ≤ foldMax q l := by
  induction l with
  | nil => intro q; exact le_refl q
  | cons x l ih =>
    intro q
    exact le_trans (le_max_left q x) (ih (max q x))

theorem le_foldMax_of_mem {α : Type} [LinearOrder α] {l : List α} {x : α}
    (h : x ∈ l) : ∀ q : α, x ≤ foldMax q l := by
  induction l with
  | nil => cases h
  | cons y l ih =>
    intro q
    rcases List.mem_cons.mp h with hx | hx
    · subst hx
      exact le_trans (le_max_right q x) (le_foldMax_init l (max q x))
    · exact ih hx (max q y)

theorem foldMax_le {α : Type} [LinearOrder α] {l : List α} {c : α}
    (h : ∀ x ∈ l, x ≤ c) : ∀ q : α, q ≤ c → foldMax q l ≤ c := by
  induction l with
  | nil => intro q hq; exact hq
  | cons x l ih =>
    intro q hq
    exact ih (fun y hy => h y (List.mem_cons_of_mem x hy)) (max q x)
      (max_le hq (h x (List.mem_cons_self x l)))

theorem foldMax_eq_init_or_mem {α : Type} [LinearOrder α] (l : List α) :
    ∀ q : α, foldMax q l = q ∨ foldMax q l ∈ l := by
  induction l with
  | nil => intro q; exact Or.inl rfl
  | cons x l ih =>
    intro q
    rcases ih (max q x) with h | h
    · rcases max_choice q x with hm | hm
      · exact Or.inl (by rw [foldMax_cons, h, hm])
      · refine Or.inr ?_
        rw [foldMax_cons, h, hm]
        exact List.mem_cons_self x l
    · exact Or.inr (List.mem_cons_of_mem x h)

theorem foldMax_out {α : Type} [LinearOrder α] (l : List α) :
    ∀ q x : α, foldMax (max q x) l = max x (foldMax q l) := by
  induction l with
  | nil => intro q x; exact max_comm q x
  | cons y l ih =>
    intro q x
    have hswap : max (max q x) y = max (max q y) x := by
      rw [max_assoc, max_comm x y, ← max_assoc]
    rw [foldMax_cons, hswap, ih (max q y) x, foldMax_cons]

theorem foldMax_cons_out {α : Type} [LinearOrder α] (q x : α) (l : List α) :
    foldMax q (x :: l) = max x (foldMax q l) := by
  rw [foldMax_cons, foldMax_out]

theorem find?_ext {α : Type} {p q : α → Bool} :
    ∀ {l : List α}, (∀ x ∈ l, p x = q x) → l.find? p = l.find? q := by
  intro l
  induction l with
  | nil => intro _; rfl
  | cons x l ih =>
    intro h
    have hx := h x (List.mem_cons_self x l)
    by_cases hp : p x = true
    · rw [List.find?_cons_of_pos _ hp, List.find?_cons_of_pos _ (hx ▸ hp)]
    · rw [List.find?_cons_of_neg _ hp, List.find?_cons_of_neg _ (hx ▸ hp),
        ih (fun y hy => h y (List.mem_cons_of_mem x hy))]

theorem find?_of_exists {α : Type} {p : α → Bool} :
    ∀ {l : List α}, (∃ x ∈ l, p x = true) → ∃ a, l.find? p = some a := by
  intro l
  induction l with
  | nil => rintro ⟨x, hx, _⟩; cases hx
  | cons y l ih =>
    rintro ⟨x, hx, hpx⟩
    by_cases hp : p y = true
    · exact ⟨y, List.find?_cons_of_pos _ hp⟩
    · rcases List.mem_cons.mp hx with h | h
      · subst h; exact absurd hpx hp
      · rcases ih ⟨x, h, hpx⟩ with ⟨a, ha⟩
        exact ⟨a, by rw [List.find?_cons_of_neg _ hp, ha]⟩

theorem find?_first {α : Type} {p : α → Bool} :
    ∀ {l : List α} {a : α}, l.find? p = some a →
      ∃ i, ∃ hi : i < l.length, l.get ⟨i, hi⟩ = a ∧ p a = true ∧
        ∀ j, ∀ hj : j < l.length, j < i → p (l.get ⟨j, hj⟩) = false := by
  intro l
  induction l with
  | nil => intro a h; cases h
  | cons x l ih =>
    intro a h
    by_cases hp : p x = true
    · rw [List.find?_cons_of_pos _ hp] at h
      injection h with h
      subst h
      refine ⟨0, Nat.succ_pos _, rfl, hp, ?_⟩
      intro j hj hj0; cases hj0
    · have hp' : p x = false := by simpa using hp
      rw [List.find?_cons_of_neg _ hp] at h
      rcases ih h with ⟨i, hi, hget, hpa, hbefore⟩
      refine ⟨i + 1, Nat.succ_lt_succ hi, hget, hpa, ?_⟩
      intro j hj hji
      cases j with
      | zero => exact hp'
      | succ j => exact hbefore j (Nat.lt_of_succ_lt_succ hj) (Nat.lt_of_succ_lt_succ hji)

/-! ## Claim theorems -/

/-- C1: for every non-empty list of specialist findings, the aggregated
risk score is the maximum of the risk scores of the findings (an attained upper
bound, never a sum or average), and `primary_threat` is the agent id of
the first finding in invocation order attaining that maximum: the finding
at the witness index attains the maximum and every earlier finding is
strictly below it. -/
theorem aggregate_risk_is_max_and_primary_first (rs : List Finding) (h : rs ≠ []) :
    (∀ f ∈ rs, f.risk_score ≤ (aggregateResults rs).risk_score) ∧
    (∃ i, ∃ hi : i < rs.length,
      (rs.get ⟨i, hi⟩).risk_score = (aggregateResults rs).risk_score ∧
      (aggregateResults rs).primary_threat = some (rs.get ⟨i, hi⟩).agent ∧
      ∀ j, ∀ hj : j < rs.length, j < i →
        (rs.get ⟨j, hj⟩).risk_score < (aggregateResults rs).risk_score) := by
  match rs with
  | [] => exact absurd rfl h
  | r :: rest =>
    have hrisk : (aggregateResults (r :: rest)).risk_score =
        foldMax r.risk_score (rest.map (·.risk_score)) := rfl
    have hprim : (aggregateResults (r :: rest)).primary_threat =
        ((r :: rest).find? (fun x =>
          decide (x.risk_score = foldMax r.risk_score (rest.map (·.risk_score))))).map
          (·.agent) := rfl
    have hub : ∀ f ∈ r :: rest,
        f.risk_score ≤ (aggregateResults (r :: rest)).risk_score := by
      intro f hf
      rw [hrisk]
      rcases List.mem_cons.mp hf with hf | hf
      · subst hf; exact le_foldMax_init _ _
      · exact le_foldMax_of_mem (List.mem_map_of_mem (·.risk_score) hf) _
    refine ⟨hub, ?_⟩
    have hattained : ∃ x ∈ r :: rest,
        x.risk_score = foldMax r.risk_score (rest.map (·.risk_score)) := by
      rcases foldMax_eq_init_or_mem (rest.map (·.risk_score)) r.risk_score with hM | hM
      · exact ⟨r, List.mem_cons_self r rest, hM.symm⟩
      · rcases List.mem_map.mp hM with ⟨f, hf, hfeq⟩
        exact ⟨f, List.mem_cons_of_mem r hf, hfeq⟩
    rcases hattained with ⟨x, hx, hxr⟩
    rcases find?_of_exists
        (p := fun x => decide (x.risk_score = foldMax r.risk_score (rest.map (·.risk_score))))
        ⟨x, hx, decide_eq_true hxr⟩ with ⟨a, ha⟩
    rcases find?_first ha with ⟨i, hi, hget, hpa, hbef⟩
    refine ⟨i, hi, ?_, ?_, ?_⟩
    · rw [hget, hrisk]
      exact of_decide_eq_true hpa
    · rw [hprim, ha, hget]
      rfl
    · intro j hj hji
      have hne := of_decide_eq_false (hbef j hj hji)
      have hle := hub _ (List.get_mem (r :: rest) j hj)
      rw [hrisk] at hle ⊢
      exact lt_of_le_of_ne hle hne

/-- A sample list of findings used to witness the aggregation theorem. -/
def sampleFindings : List Finding := [⟨"a", 0.5, none⟩, ⟨"b", 0.7, none⟩]

/-- Witness for C1 at a concrete two-element findings list. -/
theorem aggregate_risk_is_max_and_primary_first_witness :
    (∀ f ∈ sampleFindings, f.risk_score ≤ (aggregateResults sampleFindings).risk_score) ∧
    (∃ i, ∃ hi : i < sampleFindings.length,
      (sampleFindings.get ⟨i, hi⟩).risk_score = (aggregateResults sampleFindings).risk_score ∧
      (aggregateResults sampleFindings).primary_threat =
        some (sampleFindings.get ⟨i, hi⟩).agent ∧
      ∀ j, ∀ hj : j < sampleFindings.length, j < i →
        (sampleFindings.get ⟨j, hj⟩).risk_score <
          (aggregateResults sampleFindings).risk_score) :=
  aggregate_risk_is_max_and_primary_first sampleFindings (by simp [sampleFindings])

/-- The orchestrator band table of §4.3, written from the spec. -/
def orchestratorBand (r : ℚ) : String :=
  if r ≥ 0.9 then "CRITICAL"
  else if r ≥ 0.7 then "HIGH"
  else if r ≥ 0.4 then "MEDIUM"
  else if r > 0.1 then "LOW"
  else "SAFE"

/-- C3: the aggregated threat tier is a pure function of the aggregated
risk score under the orchestrator band table (≥0.9 CRITICAL, ≥0.7 HIGH,
≥0.4 MEDIUM, >0.1 LOW, else SAFE); in particular 0.95 lands in CRITICAL
and 0.65 in MEDIUM. -/
theorem aggregated_tier_is_band_of_risk (rs : List Finding) :
    (aggregateResults rs).threat_level =
      orchestratorBand (aggregateResults rs).risk_score ∧
    orchestratorBand 0.95 = "CRITICAL" ∧ orchestratorBand 0.65 = "MEDIUM" := by
  refine ⟨?_, ?_, ?_⟩
  · cases rs with
    | nil =>
      show "SAFE" = orchestratorBand 0
      norm_num [orchestratorBand]
    | cons r rest => rfl
  · norm_num [orchestratorBand]
  · norm_num [orchestratorBand]

/-- C7: any internal failure raised during agent execution is converted
into a returned `TaskResult` with status FAILED, confidence 0, the error
payload, and the error text carried in the reasoning; `executeAgent` is a
total function, so the caller never observes a raised error. -/
theorem failed_execution_is_contained {α : Type} (agentId : String)
    (hasError : α → Bool) (body : ATask → Except String (String × α))
    (task : ATask) (e : String) (h : body task = .error e) :
    executeAgent agentId hasError body task =
      ⟨task.task_id, agentId, .failed, .error e, 0, "Execution failed: " ++ e⟩ := by
  unfold executeAgent
  rw [h]

/-- Witness for C7 at a concrete failing body. -/
theorem failed_execution_is_contained_witness :
    executeAgent (α := Unit) "agent" (fun _ => false)
        (fun _ => Except.error "boom") ⟨"t1", "content"⟩ =
      ⟨"t1", "agent", .failed, .error "boom", 0, "Execution failed: " ++ "boom"⟩ :=
  failed_execution_is_contained "agent" (fun _ => false)
    (fun _ => Except.error "boom") ⟨"t1", "content"⟩ "boom" rfl

/-- C8: for tier CRITICAL the recommendation list has at least 5 entries;
for age ≥ 60 exactly the elder-specific literal is prepended as first
entry, and for age < 60 the list does not begin with it. -/
theorem critical_recommendations (age : ℤ) (risk : ℚ) :
    5 ≤ (generateRecommendations "CRITICAL" risk age).length ∧
    (60 ≤ age → generateRecommendations "CRITICAL" risk age = elderRec :: criticalRecs) ∧
    (age < 60 → (generateRecommendations "CRITICAL" risk age).head? ≠ some elderRec) := by
  have hc : generateRecommendations "CRITICAL" risk age =
      if 60 ≤ age then elderRec :: criticalRecs else criticalRecs := by
    unfold generateRecommendations
    simp
  rcases le_or_lt 60 age with h | h
  · rw [hc, if_pos h]
    exact ⟨by decide, fun _ => rfl, fun hlt => absurd h (not_le.mpr hlt)⟩
  · rw [hc, if_neg (not_le.mpr h)]
    exact ⟨by decide, fun hge => absurd hge (not_le.mpr h), fun _ => by decide⟩

/-- Witness for C8 at ages 65 and 45. -/
theorem critical_recommendations_witness :
    generateRecommendations "CRITICAL" 0.95 65 = elderRec :: criticalRecs ∧
    (generateRecommendations "CRITICAL" 0.95 45).head? ≠ some elderRec :=
  ⟨(critical_recommendations 65 0.95).2.1 (by norm_num),
   (critical_recommendations 45 0.95).2.2 (by norm_num)⟩

/-- C9: the verdict of `analyze` (risk score, threat tier, trajectory
match) does not depend on the statistics counters, which only increment:
two calls with identical content, age, and trajectory table but arbitrary
counter states return the same verdict, while `total_analyses` advances. -/
theorem verdict_independent_of_stats (trajs : List Trajectory) (s1 s2 : Stats)
    (content : String) (age : ℤ) :
    (analyze trajs s1 content age).1.risk_score =
      (analyze trajs s2 content age).1.risk_score ∧
    (analyze trajs s1 content age).1.threat_level =
      (analyze trajs s2 content age).1.threat_level ∧
    (analyze trajs s1 content age).1.matched_trajectory =
      (analyze trajs s2 content age).1.matched_trajectory ∧
    (analyze trajs s1 content age).2.total_analyses = s1.total_analyses + 1 := by
  refine ⟨rfl, rfl, rfl, ?_⟩
  simp only [analyze]
  split_ifs <;> rfl

/-- C10: the `ProtectionResult` of `analyze` has `emergency_action` set
exactly when its threat level is CRITICAL. -/
theorem emergency_iff_critical (trajs : List Trajectory) (stats : Stats)
    (content : String) (age : ℤ) :
    (analyze trajs stats content age).1.emergency_action = true ↔
      (analyze trajs stats content age).1.threat_level = "CRITICAL" := by
  simp only [analyze]
  exact beq_iff_eq

/-- Best red-flag overlap count over the trajectory library (0 when the
library is empty). -/
def bestTrajCount (trajs : List Trajectory) (content : String) : ℕ :=
  foldMax 0 (trajs.map (trajScore (lower content)))

/-- The trajectory attains overlap count `m`. -/
def trajAtMax (cl : String) (m : ℕ) (t : Trajectory) : Bool :=
  decide (trajScore cl t = m)

/-- Trajectory matching as the spec words it: the first trajectory in
registration order attaining the best overlap count, accepted only when
that count is at least 2. -/
def specTrajectoryMatch (trajs : List Trajectory) (content : String) : Option Trajectory :=
  if 2 ≤ bestTrajCount trajs content then
    trajs.find? (trajAtMax (lower content) (bestTrajCount trajs content))
  else none

/-- The trajectory beats the running best `s` and attains the maximum `m`. -/
def isBestAbove (cl : String) (s m : ℕ) (t : Trajectory) : Bool :=
  decide (s < trajScore cl t ∧ m ≤ trajScore cl t)

theorem trajFold_const (cl : String) :
    ∀ (ts : List Trajectory) (b : Option Trajectory) (s : ℕ),
      (∀ t ∈ ts, trajScore cl t ≤ s) → ts.foldl (trajStep cl) (b, s) = (b, s) := by
  intro ts
  induction ts with
  | nil => intro b s _; rfl
  | cons t ts ih =>
    intro b s h
    have hstep : trajStep cl (b, s) t = (b, s) := by
      unfold trajStep
      exact if_neg (not_lt.mpr (h t (List.mem_cons_self t ts)))
    rw [List.foldl_cons, hstep]
    exact ih b s (fun x hx => h x (List.mem_cons_of_mem t hx))

theorem trajFold_first (cl : String) :
    ∀ (ts : List Trajectory) (b : Option Trajectory) (s : ℕ),
      s < foldMax 0 (ts.map (trajScore cl)) →
      ts.foldl (trajStep cl) (b, s) =
        (ts.find? (isBestAbove cl s (foldMax 0 (ts.map (trajScore cl)))),
         foldMax 0 (ts.map (trajScore cl))) := by
  intro ts
  induction ts with
  | nil =>
    intro b s h
    exact absurd h (by simp [foldMax])
  | cons t ts ih =>
    intro b s h
    have hM : foldMax 0 ((t :: ts).map (trajScore cl)) =
        max (trajScore cl t) (foldMax 0 (ts.map (trajScore cl))) := by
      rw [List.map_cons, foldMax_cons_out]
    by_cases hc : s < trajScore cl t
    · have hstep : trajStep cl (b, s) t = (some t, trajScore cl t) := by
        unfold trajStep
        exact if_pos hc
      rw [List.foldl_cons, hstep]
      by_cases hM' : foldMax 0 (ts.map (trajScore cl)) ≤ trajScore cl t
      · have hMc : foldMax 0 ((t :: ts).map (trajScore cl)) = trajScore cl t := by
          rw [hM]; exact max_eq_left hM'
        have hconst : ts.foldl (trajStep cl) (some t, trajScore cl t) =
            (some t, trajScore cl t) :=
          trajFold_const cl ts (some t) (trajScore cl t)
            (fun x hx =>
              le_trans (le_foldMax_of_mem (List.mem_map_of_mem (trajScore cl) hx) 0) hM')
        have hpt : isBestAbove cl s (foldMax 0 ((t :: ts).map (trajScore cl))) t = true := by
          unfold isBestAbove
          rw [hMc]
          exact decide_eq_true ⟨hc, le_refl _⟩
        rw [hconst, List.find?_cons_of_pos _ hpt, hMc]
      · have hlt : trajScore cl t < foldMax 0 (ts.map (trajScore cl)) := not_le.mp hM'
        have hMM : foldMax 0 ((t :: ts).map (trajScore cl)) =
            foldMax 0 (ts.map (trajScore cl)) := by
          rw [hM]; exact max_eq_right (le_of_lt hlt)
        have hpt : ¬ isBestAbove cl s (foldMax 0 ((t :: ts).map (trajScore cl))) t = true := by
          unfold isBestAbove
          rw [hMM]
          simp only [decide_eq_true_eq]
          exact fun hand => absurd hand.2 hM'
        rw [ih (some t) (trajScore cl t) hlt, List.find?_cons_of_neg _ hpt, hMM]
        refine congrArg (fun o => (o, foldMax 0 (ts.map (trajScore cl)))) ?_
        apply find?_ext
        intro x hx
        unfold isBestAbove
        apply decide_eq_decide.mpr
        constructor
        · rintro ⟨_, h2⟩
          exact ⟨lt_trans hc (lt_of_lt_of_le hlt h2), h2⟩
        · rintro ⟨_, h2⟩
          exact ⟨lt_of_lt_of_le hlt h2, h2⟩
    · have hstep : trajStep cl (b, s) t = (b, s) := by
        unfold trajStep
        exact if_neg hc
      have hMM : foldMax 0 ((t :: ts).map (trajScore cl)) =
          foldMax 0 (ts.map (trajScore cl)) := by
        rcases max_choice (trajScore cl t) (foldMax 0 (ts.map (trajScore cl))) with hch | hch
        · rw [hM] at h
          rw [hch] at h
          exact absurd h hc
        · rw [hM, hch]
      have hs' : s < foldMax 0 (ts.map (trajScore cl)) := by
        rw [hMM] at h
        exact h
      have hpt : ¬ isBestAbove cl s (foldMax 0 ((t :: ts).map (trajScore cl))) t = true := by
        unfold isBestAbove
        simp only [decide_eq_true_eq]
        exact fun hand => absurd hand.1 hc
      rw [List.foldl_cons, hstep, ih b s hs', List.find?_cons_of_neg _ hpt, hMM]

/-- C4: trajectory matching returns the earliest-registered trajectory
with the highest case-insensitive red-flag overlap count, and only when
that best count is at least 2 (a best count of 1 yields no match): the
loop of `_match_trajectory` equals the argmax-with-threshold function
written from the spec. -/
theorem trajectory_match_is_first_best_above_threshold
    (trajs : List Trajectory) (content : String) :
    matchTrajectory trajs content = specTrajectoryMatch trajs content := by
  simp only [matchTrajectory, specTrajectoryMatch, bestTrajCount]
  rcases Nat.eq_zero_or_pos (foldMax 0 (trajs.map (trajScore (lower content)))) with h0 | hpos
  · have hconst := trajFold_const (lower content) trajs none 0 (fun t ht => by
      have hle := le_foldMax_of_mem (List.mem_map_of_mem (trajScore (lower content)) ht) 0
      omega)
    rw [hconst, h0]
    norm_num
  · rw [trajFold_first (lower content) trajs none 0 hpos]
    dsimp only
    by_cases h2 : 2 ≤ foldMax 0 (trajs.map (trajScore (lower content)))
    · rw [if_pos h2, if_pos h2]
      apply find?_ext
      intro t ht
      have hle : trajScore (lower content) t ≤
          foldMax 0 (trajs.map (trajScore (lower content))) :=
        le_foldMax_of_mem (List.mem_map_of_mem (trajScore (lower content)) ht) 0
      unfold isBestAbove trajAtMax
      apply decide_eq_decide.mpr
      constructor
      · rintro ⟨_, hge⟩
        exact le_antisymm hle hge
      · intro he
        exact ⟨he ▸ hpos, le_of_eq he.symm⟩
    · rw [if_neg h2, if_neg h2]

/-- The single detector-local band table asserted by the claim
(≥0.9 CRITICAL, ≥0.7 HIGH, ≥0.4 MEDIUM, >0 LOW, else SAFE). -/
def claimedDetectorBand (r : ℚ) : String :=
  if r ≥ 0.9 then "CRITICAL"
  else if r ≥ 0.7 then "HIGH"
  else if r ≥ 0.4 then "MEDIUM"
  else if r > 0 then "LOW"
  else "SAFE"

/-- The band table actually used by the UPI specialist (no SAFE tier). -/
def upiBand (r : ℚ) : String :=
  if r ≥ 0.9 then "CRITICAL"
  else if r ≥ 0.7 then "HIGH"
  else if r ≥ 0.4 then "MEDIUM"
  else "LOW"

/-- The band table actually used by the phishing specialist. -/
def phishingBand (r : ℚ) : String :=
  if r ≥ 0.9 then "CRITICAL" else if r ≥ 0.7 then "HIGH" else "LOW"

/-- The band table actually used by the impersonation and investment
specialists (0.8 and 0.5 thresholds). -/
def imperInvestBand (r : ℚ) : String :=
  if r ≥ 0.8 then "CRITICAL" else if r ≥ 0.5 then "HIGH" else "LOW"

/-- C6 counterexample: the UPI specialist maps risk 0 to LOW where the
claimed band says SAFE, and the impersonation specialist maps risk 0.85
to CRITICAL where the claimed band says HIGH. -/
theorem detector_band_counterexample :
    (upiAnalyze "").risk_score = 0 ∧
    (upiAnalyze "").threat_level = some "LOW" ∧
    claimedDetectorBand 0 = "SAFE" ∧
    (impersonationAnalyze "arrest custody pay").risk_score = 0.85 ∧
    (impersonationAnalyze "arrest custody pay").threat_level = some "CRITICAL" ∧
    claimedDetectorBand 0.85 = "HIGH" ∧
    ("LOW" : String) ≠ "SAFE" ∧ ("CRITICAL" : String) ≠ "HIGH" := by
  have hu : upiRisk (lower "") = 0 := by decide
  have ha : countHits authorityKeywords (lower "arrest custody pay") = 0 := by decide
  have ht : countHits threatIndicators (lower "arrest custody pay") = 2 := by decide
  have hm : anyHit moneyDemands (lower "arrest custody pay") = true := by decide
  have hv : anyHit videoCallTerms (lower "arrest custody pay") = false := by decide
  have h23 : (min 2 3 : ℕ) = 2 := by decide
  have hi : impersonationRisk (lower "arrest custody pay") = 0.85 := by
    simp only [impersonationRisk, ha, ht, hm, hv]
    norm_num [h23, min_def]
  refine ⟨?_, ?_, ?_, ?_, ?_, ?_, by decide, by decide⟩
  · simp only [upiAnalyze, hu]
  · simp only [upiAnalyze, hu]
    norm_num
  · norm_num [claimedDetectorBand]
  · simp only [impersonationAnalyze, hi]
  · simp only [impersonationAnalyze, hi]
    norm_num
  · norm_num [claimedDetectorBand]

/-- C6 amended: each detector maps its own risk score to a tier through
its own band table — UPI uses ≥0.9 CRITICAL / ≥0.7 HIGH / ≥0.4 MEDIUM /
else LOW (risk 0 included), phishing uses ≥0.9 / ≥0.7 / else LOW,
impersonation and investment use ≥0.8 CRITICAL / ≥0.5 HIGH / else LOW,
and the document analyst assigns no tier at all. -/
theorem detector_local_bands (content : String) :
    (upiAnalyze content).threat_level =
      some (upiBand (upiAnalyze content).risk_score) ∧
    (phishingAnalyze content).threat_level =
      some (phishingBand (phishingAnalyze content).risk_score) ∧
    (impersonationAnalyze content).threat_level =
      some (imperInvestBand (impersonationAnalyze content).risk_score) ∧
    (investmentAnalyze content).threat_level =
      some (imperInvestBand (investmentAnalyze content).risk_score) ∧
    (documentAnalyze content).threat_level = none :=
  ⟨rfl, rfl, rfl, rfl, rfl⟩

theorem upiPatterns_risk_nonneg : ∀ p ∈ upiPatterns, 0 ≤ p.risk := by
  intro p hp
  fin_cases hp <;> norm_num [upiCollectScam]

theorem toolScamPatterns_risk_nonneg : ∀ p ∈ toolScamPatterns, 0 ≤ p.risk := by
  intro p hp
  fin_cases hp <;> norm_num [toolCollectRequestScam]

theorem upiDetected_risk_bounds {cl : String} :
    ∀ d ∈ upiDetected cl, 0 ≤ d.risk ∧ d.risk ≤ 1 := by
  intro d hd
  rcases List.mem_filterMap.mp hd with ⟨p, hp, hps⟩
  simp only [upiPatternScore] at hps
  by_cases hcond : 0 < countHits p.keywords cl ∧ 0 < countHits p.indicators cl
  · rw [if_pos hcond] at hps
    injection hps with hps
    subst hps
    refine ⟨le_min ?_ (by norm_num), min_le_right _ _⟩
    exact mul_nonneg (upiPatterns_risk_nonneg p hp) (by positivity)
  · rw [if_neg hcond] at hps
    cases hps

theorem toolDetected_bounds {ml : String} :
    ∀ r ∈ toolDetected ml, 0 ≤ r ∧ r ≤ 1 := by
  intro r hr
  rcases List.mem_filterMap.mp hr with ⟨p, hp, hps⟩
  simp only [toolPatternScore] at hps
  by_cases hcond : 0 < countHits p.keywords ml ∧ 0 < countHits p.indicators ml
  · rw [if_pos hcond] at hps
    injection hps with hps
    subst hps
    refine ⟨le_min ?_ (by norm_num), min_le_right _ _⟩
    exact mul_nonneg (toolScamPatterns_risk_nonneg p hp) (by positivity)
  · rw [if_neg hcond] at hps
    cases hps

theorem upiBaseRisk_bounds (cl : String) : 0 ≤ upiBaseRisk cl ∧ upiBaseRisk cl ≤ 1 :=
  ⟨le_foldMax_init _ 0,
   foldMax_le (fun x hx => by
     rcases List.mem_map.mp hx with ⟨d, hd, hdx⟩
     exact hdx ▸ (upiDetected_risk_bounds d hd).2) 0 (by norm_num)⟩

theorem upiRisk_bounds (cl : String) : 0 ≤ upiRisk cl ∧ upiRisk cl ≤ 1 := by
  simp only [upiRisk]
  split_ifs with h
  · refine ⟨le_min ?_ (by norm_num), min_le_right _ _⟩
    exact add_nonneg (upiBaseRisk_bounds cl).1 (by positivity)
  · exact upiBaseRisk_bounds cl

theorem phishingIndicators_risk_le_one : ∀ d ∈ phishingIndicators, d.risk ≤ 1 := by
  intro d hd
  fin_cases hd <;> norm_num

theorem phishingRisk_bounds (cl : String) : 0 ≤ phishingRisk cl ∧ phishingRisk cl ≤ 1 := by
  have hbase : 0 ≤ phishingBaseRisk cl ∧ phishingBaseRisk cl ≤ 1 := by
    refine ⟨le_foldMax_init _ 0, foldMax_le (fun x hx => ?_) 0 (by norm_num)⟩
    rcases List.mem_map.mp hx with ⟨d, hd, hdx⟩
    exact hdx ▸ phishingIndicators_risk_le_one d (List.mem_of_mem_filter hd)
  simp only [phishingRisk]
  split_ifs
  · exact ⟨by norm_num, by norm_num⟩
  · exact hbase
  · exact hbase

theorem impersonationRisk_bounds (cl : String) :
    0 ≤ impersonationRisk cl ∧ impersonationRisk cl ≤ 1 := by
  simp only [impersonationRisk]
  refine ⟨le_min ?_ (by norm_num), min_le_right _ _⟩
  split_ifs <;> positivity

theorem documentRisk_bounds (cl : String) :
    0 ≤ documentRisk cl ∧ documentRisk cl ≤ 1 := by
  simp only [documentRisk]
  exact ⟨le_min (by positivity) (by norm_num), min_le_right _ _⟩

theorem investmentRisk_bounds (cl : String) :
    0 ≤ investmentRisk cl ∧ investmentRisk cl ≤ 1 := by
  simp only [investmentRisk]
  refine ⟨le_min ?_ (by norm_num), min_le_right _ _⟩
  split_ifs <;> positivity

/-- C5: each specialist detector is a total function of its input string
(matching the declared `content: str` signature; in the Python
source the whole body is straight-line code over `content.lower()`), its
risk score always lies in [0,1], and empty input yields risk 0. -/
theorem detectors_bounded_and_empty_zero (content : String) :
    (0 ≤ (upiAnalyze content).risk_score ∧ (upiAnalyze content).risk_score ≤ 1) ∧
    (0 ≤ (phishingAnalyze content).risk_score ∧ (phishingAnalyze content).risk_score ≤ 1) ∧
    (0 ≤ (impersonationAnalyze content).risk_score ∧
      (impersonationAnalyze content).risk_score ≤ 1) ∧
    (0 ≤ (documentAnalyze content).risk_score ∧ (documentAnalyze content).risk_score ≤ 1) ∧
    (0 ≤ (investmentAnalyze content).risk_score ∧
      (investmentAnalyze content).risk_score ≤ 1) ∧
    (upiAnalyze "").risk_score = 0 ∧
    (phishingAnalyze "").risk_score = 0 ∧
    (impersonationAnalyze "").risk_score = 0 ∧
    (documentAnalyze "").risk_score = 0 ∧
    (investmentAnalyze "").risk_score = 0 := by
  have himp0 : impersonationRisk (lower "") = 0 := by
    have ha0 : countHits authorityKeywords (lower "") = 0 := by decide
    have ht0 : countHits threatIndicators (lower "") = 0 := by decide
    have hm0 : anyHit moneyDemands (lower "") = false := by decide
    have hv0 : anyHit videoCallTerms (lower "") = false := by decide
    simp only [impersonationRisk, ha0, ht0, hm0, hv0]
    norm_num [min_def]
  have hdoc0 : documentRisk (lower "") = 0 := by
    have hc0 : documentIssueCount (lower "") = 0 := by decide
    simp only [documentRisk, hc0]
    norm_num [min_def]
  have hinv0 : investmentRisk (lower "") = 0 := by
    have hs0 : countHits scamIndicators (lower "") = 0 := by decide
    have hr0 : countHits redFlagTerms (lower "") = 0 := by decide
    have hre0 : searchReturnCL (lower "").toList = false := by decide
    simp only [investmentRisk, hs0, hr0, hre0]
    norm_num [min_def]
  exact ⟨upiRisk_bounds (lower content), phishingRisk_bounds (lower content),
    impersonationRisk_bounds (lower content), documentRisk_bounds (lower content),
    investmentRisk_bounds (lower content),
    by decide, by decide, himp0, hdoc0, hinv0⟩

/-- The per-pattern score formula asserted by the claim:
`base_weight × min(1, 0.5 + 0.25×keyword_hits + 0.25×indicator_hits)`. -/
def claimedPatternScore (w : ℚ) (k i : ℕ) : ℚ :=
  w * min 1 (0.5 + 0.25 * (k : ℚ) + 0.25 * (i : ℚ))

/-- C2 counterexample: on `"collect request won"` the collect-request
pattern of the UPI scam-detector tool has 2 keyword hits and 1 indicator
hit; its computed per-pattern score is 1 (the cap applies to the whole
product), while the claimed formula yields 0.9. -/
theorem tool_pattern_score_counterexample :
    countHits toolCollectRequestScam.keywords (lower "collect request won") = 2 ∧
    countHits toolCollectRequestScam.indicators (lower "collect request won") = 1 ∧
    toolPatternScore toolCollectRequestScam (lower "collect request won") = some 1 ∧
    claimedPatternScore toolCollectRequestScam.risk 2 1 = 0.9 ∧
    (1 : ℚ) ≠ 0.9 := by
  have hk : countHits toolCollectRequestScam.keywords (lower "collect request won") = 2 := by
    decide
  have hi : countHits toolCollectRequestScam.indicators (lower "collect request won") = 1 := by
    decide
  refine ⟨hk, hi, ?_, ?_, by norm_num⟩
  · simp only [toolPatternScore, hk, hi]
    norm_num [toolCollectRequestScam, min_def]
  · norm_num [claimedPatternScore, toolCollectRequestScam, min_def]

/-- C2 amended: for a two-tier pattern with at least one keyword and one
indicator hit, the per-pattern score is the whole product capped at 1 —
`min(1, base × (0.7 + 0.15k + 0.15i))` in the UPI specialist and
`min(1, base × (0.5 + 0.25k + 0.25i))` in the UPI scam-detector tool —
and the pre-amplifier risk is the maximum of the matched per-pattern
scores (0 when no pattern matches). -/
theorem pattern_score_formula_and_max (content : String) :
    (∀ p ∈ upiPatterns, 0 < countHits p.keywords (lower content) →
      0 < countHits p.indicators (lower content) →
      upiPatternScore p (lower content) = some ⟨p.name,
        min (p.risk * (0.7 + 0.15 * (countHits p.keywords (lower content) : ℚ)
          + 0.15 * (countHits p.indicators (lower content) : ℚ))) 1,
        countHits p.keywords (lower content), countHits p.indicators (lower content)⟩) ∧
    (∀ p ∈ toolScamPatterns, 0 < countHits p.keywords (lower content) →
      0 < countHits p.indicators (lower content) →
      toolPatternScore p (lower content) = some (min (p.risk * (0.5
        + 0.25 * (countHits p.keywords (lower content) : ℚ)
        + 0.25 * (countHits p.indicators (lower content) : ℚ))) 1)) ∧
    (∀ d ∈ upiDetected (lower content), d.risk ≤ upiBaseRisk (lower content)) ∧
    (upiDetected (lower content) ≠ [] →
      ∃ d ∈ upiDetected (lower content), upiBaseRisk (lower content) = d.risk) ∧
    (upiDetected (lower content) = [] → upiBaseRisk (lower content) = 0) ∧
    (∀ r ∈ toolDetected (lower content), r ≤ toolBaseRisk (lower content)) ∧
    (toolDetected (lower content) ≠ [] →
      ∃ r ∈ toolDetected (lower content), toolBaseRisk (lower content) = r) ∧
    (toolDetected (lower content) = [] → toolBaseRisk (lower content) = 0) := by
  refine ⟨?_, ?_, ?_, ?_, ?_, ?_, ?_, ?_⟩
  · intro p _ hk hi
    simp only [upiPatternScore]
    rw [if_pos ⟨hk, hi⟩]
  · intro p _ hk hi
    simp only [toolPatternScore]
    rw [if_pos ⟨hk, hi⟩]
  · intro d hd
    exact le_foldMax_of_mem (List.mem_map_of_mem (·.risk) hd) 0
  · intro hne
    rcases foldMax_eq_init_or_mem ((upiDetected (lower content)).map (·.risk)) 0 with h0 | hm
    · obtain ⟨d, ds, hx⟩ := List.exists_cons_of_ne_nil hne
      have hdmem : d ∈ upiDetected (lower content) := by
        rw [hx]; exact List.mem_cons_self d ds
      have hub : d.risk ≤ upiBaseRisk (lower content) :=
        le_foldMax_of_mem (List.mem_map_of_mem (·.risk) hdmem) 0
      have hz : upiBaseRisk (lower content) = 0 := h0
      rw [hz] at hub ⊢
      exact ⟨d, hdmem, (le_antisymm hub (upiDetected_risk_bounds d hdmem).1).symm⟩
    · rcases List.mem_map.mp hm with ⟨d, hd, hdx⟩
      exact ⟨d, hd, hdx.symm⟩
  · intro hx
    simp only [upiBaseRisk, hx, List.map_nil]
    rfl
  · intro r hr
    exact le_foldMax_of_mem hr 0
  · intro hne
    rcases foldMax_eq_init_or_mem (toolDetected (lower content)) 0 with h0 | hm
    · obtain ⟨r, rs, hx⟩ := List.exists_cons_of_ne_nil hne
      have hrmem : r ∈ toolDetected (lower content) := by
        rw [hx]; exact List.mem_cons_self r rs
      have hub : r ≤ toolBaseRisk (lower content) := le_foldMax_of_mem hrmem 0
      have hz : toolBaseRisk (lower content) = 0 := h0
      rw [hz] at hub ⊢
      exact ⟨r, hrmem, (le_antisymm hub (toolDetected_bounds r hrmem).1).symm⟩
    · exact ⟨foldMax 0 (toolDetected (lower content)), hm, rfl⟩
  · intro hx
    simp only [toolBaseRisk, hx]
    rfl

/-- Witness for the amended C2 at `"collect claim won"` (2 keyword hits,
1 indicator hit on the collect-scam pattern of the UPI specialist). -/
theorem pattern_score_formula_and_max_witness :
    upiPatternScore upiCollectScam (lower "collect claim won") = some ⟨upiCollectScam.name,
      min (upiCollectScam.risk * (0.7
        + 0.15 * (countHits upiCollectScam.keywords (lower "collect claim won") : ℚ)
        + 0.15 * (countHits upiCollectScam.indicators (lower "collect claim won") : ℚ))) 1,
      countHits upiCollectScam.keywords (lower "collect claim won"),
      countHits upiCollectScam.indicators (lower "collect claim won")⟩ :=
  (pattern_score_formula_and_max "collect claim won").1 upiCollectScam
    (by simp [upiPatterns]) (by decide) (by decide)

end Scalar
